import Mathlib

/-!
Shallow embedding of `src/bus_stop_mapping.py`, a GTFS bus stop / route
mapping script: it discovers `gtfs_*.zip` archives, reads the tables
`shapes.txt`, `stops.txt`, `routes.txt`, `trips.txt` from each (tagging rows
with the feed name), concatenates across feeds, casts coordinate columns,
builds one line geometry per feed-qualified shape id, joins trips to routes
for labels, and renders polylines and circle markers on a folium map.

Modelling conventions:
* a CSV cell read with `dtype=str` is `Option String`; `none` models the NaN
  that pandas stores for an empty field;
* `float` values produced by `astype(float)` are modelled as exact rationals
  (`Option ℚ`, with `none` for NaN, which `astype(float)` passes through);
* pandas data frames are lists of structures, one structure per table schema;
* string order (used by `sorted` and `sort_values`) is code-point
  lexicographic order, implemented on `List Char` so that it evaluates;
* `sort_values` is modelled with insertion sort: the claims checked here
  state only sortedness and permutation facts, which hold for any correct
  sort algorithm;
* fallible steps (`assert`, `pd.concat` of an empty list, failed casts)
  return `Except String`.
-/

namespace BusStopMapping

/-- A raw CSV cell under `read_csv(..., dtype=str)`: `none` is NaN (empty field). -/
abbrev Cell := Option String

/-- How Python's f-string prints a cell (NaN prints as `nan`). -/
def cellStr (c : Cell) : String :=
  match c with
  | none => "nan"
  | some s => s

/-! ### Numeric casts (`astype(float)`, `astype(int)`) -/

/-- All characters are decimal digits. -/
def allDigits (cs : List Char) : Bool := cs.all (·.isDigit)

/-- Value of a digit string (most significant first). -/
def digitsVal (cs : List Char) : Nat := cs.foldl (fun a c => a * 10 + (c.toNat - 48)) 0

/-- Parse an unsigned decimal literal (`"40"`, `"40.7"`, `".5"`, `"40."`)
to its exact rational value; `none` when the text is not such a literal. -/
def parseUnsignedFloat? (cs : List Char) : Option ℚ :=
  let ip := cs.takeWhile (fun c => c ≠ '.')
  let rest := cs.dropWhile (fun c => c ≠ '.')
  match rest with
  | [] => if !ip.isEmpty && allDigits ip then some (mkRat (digitsVal ip) 1) else none
  | _ :: frac =>
      if (!ip.isEmpty || !frac.isEmpty) && allDigits ip && allDigits frac then
        some (mkRat (digitsVal ip * 10 ^ frac.length + digitsVal frac) (10 ^ frac.length))
      else none

/-- The text-to-float cast used by `astype(float)` on one string, modelled as
an exact-rational parse of a signed decimal literal. -/
def parseFloat? (s : String) : Option ℚ :=
  match s.data with
  | '-' :: cs => (parseUnsignedFloat? cs).map (fun q => -q)
  | '+' :: cs => parseUnsignedFloat? cs
  | cs => parseUnsignedFloat? cs

/-- The text-to-int cast used by `astype(int)` on one string. -/
def parseInt? (s : String) : Option Int :=
  match s.data with
  | '-' :: cs => if !cs.isEmpty && allDigits cs then some (-(digitsVal cs : Int)) else none
  | '+' :: cs => if !cs.isEmpty && allDigits cs then some (digitsVal cs) else none
  | cs => if !cs.isEmpty && allDigits cs then some (digitsVal cs) else none

/-- `astype(float)` on one cell: NaN passes through as NaN, a parseable string
becomes its value, anything else raises (`ValueError`). -/
def castCell (c : Cell) : Except String (Option ℚ) :=
  match c with
  | none => .ok none
  | some s =>
      match parseFloat? s with
      | some q => .ok (some q)
      | none => .error ("could not convert string to float: " ++ s)

/-- `astype(int)` on one cell: NaN raises, as does a non-integer string. -/
def castIntCell (c : Cell) : Except String Int :=
  match c with
  | none => .error "Cannot convert non-finite values (NA or inf) to integer"
  | some s =>
      match parseInt? s with
      | some n => .ok n
      | none => .error ("invalid literal for int with base 10: " ++ s)

/-- One cell survives `astype(float)` without raising. -/
def castableCell (c : Cell) : Bool :=
  match c with
  | none => true
  | some s => (parseFloat? s).isSome

/-! ### Raw tables, archives and the feed loader -/

/-- A row of `stops.txt` as read with `dtype=str`. -/
structure RawStop where
  stop_id : Cell
  stop_name : Cell
  stop_lat : Cell
  stop_lon : Cell
deriving DecidableEq

/-- A row of `shapes.txt` as read with `dtype=str` (`shape_id` is modelled as
present: the script would crash in the `shape_uid` concatenation otherwise). -/
structure RawShape where
  shape_id : String
  shape_pt_lat : Cell
  shape_pt_lon : Cell
  shape_pt_sequence : Cell
deriving DecidableEq

/-- The columns of `routes.txt` the script uses. -/
structure RawRoute where
  route_id : Cell
  route_short_name : Cell
  route_long_name : Cell
  route_color : Cell
deriving DecidableEq

/-- The columns of `trips.txt` the script uses. -/
structure RawTrip where
  route_id : Cell
  shape_id : Cell
deriving DecidableEq

/-- One `gtfs_*.zip` archive: its file name and the required tables it
contains (`none` when the member file is absent, which only warns). -/
structure Archive where
  name : String
  shapes : Option (List RawShape)
  stops : Option (List RawStop)
  routes : Option (List RawRoute)
  trips : Option (List RawTrip)

/-- Code-point comparison of char lists: strict lexicographic less-than. -/
def charListLt : List Char → List Char → Bool
  | [], [] => false
  | [], _ :: _ => true
  | _ :: _, [] => false
  | a :: as, b :: bs => decide (a < b) || (decide (a = b) && charListLt as bs)

/-- Strict lexicographic less-than on strings (code points), as `sorted` uses. -/
def strLtB (s t : String) : Bool := charListLt s.data t.data

/-- Non-strict lexicographic order on strings. -/
def strLeB (s t : String) : Bool := strLtB s t || decide (s = t)

/-- Lexicographic order on strings as a decidable relation for sorting. -/
def strLe (s t : String) : Prop := strLeB s t = true

instance : DecidableRel strLe := fun s t => inferInstanceAs (Decidable (strLeB s t = true))

/-- One char list is a prefix of another. -/
def isPrefixList : List Char → List Char → Bool
  | [], _ => true
  | _ :: _, [] => false
  | a :: as, b :: bs => decide (a = b) && isPrefixList as bs

/-- Does a file name match the glob `gtfs_*.zip`? (`*` matches any, possibly
empty, run of characters within the name.) -/
def matchesZipPattern (name : String) : Bool :=
  isPrefixList "gtfs_".data name.data
    && isPrefixList ".zip".data.reverse name.data.reverse
    && decide (9 ≤ name.data.length)

/-- `sorted(FOLDER.glob("gtfs_*.zip"))`: the matching names of the input
directory, sorted. -/
def zip_paths (listing : List String) : List String :=
  List.insertionSort strLe (listing.filter matchesZipPattern)

/-- `os.path.splitext(os.path.basename(zp))[0]`, e.g. `gtfs_m.zip ↦ gtfs_m`
(the loader only applies it to names that end in `.zip`). -/
def feedName (zipName : String) : String :=
  if isPrefixList ".zip".data.reverse zipName.data.reverse then
    String.mk (zipName.data.take (zipName.data.length - 4))
  else zipName

/-- One bucket entry: the rows of one table of one archive, each tagged with
the feed name (`df["borough_feed"] = feed_name`). -/
def taggedTable {β : Type} (get : Archive → Option (List β)) (a : Archive) :
    Option (List (β × String)) :=
  (get a).map (fun rows => rows.map (fun r => (r, feedName a.name)))

/-- `buckets[fn]`: the tagged tables of the archives that contain file `fn`. -/
def bucket {β : Type} (get : Archive → Option (List β)) (zips : List Archive) :
    List (List (β × String)) :=
  zips.filterMap (taggedTable get)

/-- `pd.concat(frames, ignore_index=True)`: raises `ValueError` when the list
of frames is empty, otherwise stacks the rows. -/
def concatBucket {α : Type} (b : List (List α)) : Except String (List α) :=
  if b.isEmpty then .error "No objects to concatenate" else .ok b.flatten

/-! ### Normalized tables -/

/-- A stop row after the `stop_lat`/`stop_lon` float casts (lines 56-57). -/
structure StopRow where
  stop_id : Cell
  stop_name : Cell
  stop_lat : Option ℚ
  stop_lon : Option ℚ
  borough_feed : String
deriving DecidableEq

/-- `stops["stop_lat"] = stops["stop_lat"].astype(float)` and the same for
`stop_lon`: each row's coordinate cells are cast; a NaN survives as NaN, and
nothing is dropped. The first failing cell raises. -/
def castStops : List (RawStop × String) → Except String (List StopRow)
  | [] => .ok []
  | rf :: rest =>
      match castCell rf.1.stop_lat with
      | .error e => .error e
      | .ok lat =>
          match castCell rf.1.stop_lon with
          | .error e => .error e
          | .ok lon =>
              match castStops rest with
              | .error e => .error e
              | .ok tail =>
                  .ok ({ stop_id := rf.1.stop_id, stop_name := rf.1.stop_name,
                         stop_lat := lat, stop_lon := lon, borough_feed := rf.2 } :: tail)

/-- A shape point after the float/int casts of lines 52-54. -/
structure ShapeRow where
  shape_id : String
  shape_pt_lat : Option ℚ
  shape_pt_lon : Option ℚ
  shape_pt_sequence : Int
  borough_feed : String
deriving DecidableEq

/-- The casts of lines 52-54 applied to the concatenated shapes table. -/
def castShapes : List (RawShape × String) → Except String (List ShapeRow)
  | [] => .ok []
  | rf :: rest =>
      match castCell rf.1.shape_pt_lat with
      | .error e => .error e
      | .ok lat =>
          match castCell rf.1.shape_pt_lon with
          | .error e => .error e
          | .ok lon =>
              match castIntCell rf.1.shape_pt_sequence with
              | .error e => .error e
              | .ok seq =>
                  match castShapes rest with
                  | .error e => .error e
                  | .ok tail =>
                      .ok ({ shape_id := rf.1.shape_id, shape_pt_lat := lat,
                             shape_pt_lon := lon, shape_pt_sequence := seq,
                             borough_feed := rf.2 } :: tail)

/-- `shapes["shape_uid"] = shapes["borough_feed"] + "_" + shapes["shape_id"]`. -/
def shape_uid (r : ShapeRow) : String := r.borough_feed ++ "_" ++ r.shape_id

/-! ### trips → routes join (`shape2route`) -/

/-- `drop_duplicates(keys)` with pandas' default `keep="first"`: keep each
row whose key was not seen before it. -/
def dedupByFirst {α β : Type} [DecidableEq β] (f : α → β) (seen : List β) :
    List α → List α
  | [] => []
  | a :: l => if f a ∈ seen then dedupByFirst f seen l else a :: dedupByFirst f (f a :: seen) l

/-- `trips[["route_id", "shape_id", "borough_feed"]].dropna()`: drop the rows
with a NaN among those columns (`borough_feed` is never NaN). -/
def trips_dropna (ts : List (RawTrip × String)) : List (RawTrip × String) :=
  ts.filter (fun tf => tf.1.route_id.isSome && tf.1.shape_id.isSome)

/-- The key of `.drop_duplicates(["shape_id", "borough_feed"])`. -/
def tripKey (tf : RawTrip × String) : Cell × String := (tf.1.shape_id, tf.2)

/-- A row of the merged `shape2route` frame (lines 64-72). -/
structure Shape2RouteRow where
  route_id : Cell
  shape_id : Cell
  borough_feed : String
  route_short_name : Cell
  route_long_name : Cell
  route_color : Cell
  shape_uid : String
deriving DecidableEq

/-- Lines 64-72: dropna, keep the first trip per `(shape_id, borough_feed)`,
left-merge route attributes on `(route_id, borough_feed)`, then derive
`shape_uid = borough_feed + "_" + shape_id`. -/
def shape2route (trips : List (RawTrip × String)) (routes : List (RawRoute × String)) :
    List Shape2RouteRow :=
  (dedupByFirst tripKey [] (trips_dropna trips)).flatMap (fun tf =>
    let ms := routes.filter (fun rf => decide (rf.1.route_id = tf.1.route_id ∧ rf.2 = tf.2))
    let uid := tf.2 ++ "_" ++ (tf.1.shape_id.getD "")
    if ms.isEmpty then
      [{ route_id := tf.1.route_id, shape_id := tf.1.shape_id, borough_feed := tf.2,
         route_short_name := none, route_long_name := none, route_color := none,
         shape_uid := uid }]
    else ms.map (fun rf =>
      { route_id := tf.1.route_id, shape_id := tf.1.shape_id, borough_feed := tf.2,
        route_short_name := rf.1.route_short_name, route_long_name := rf.1.route_long_name,
        route_color := rf.1.route_color, shape_uid := uid }))

/-! ### Geometry builder (lines 75-82) -/

/-- The sort key order of `sort_values(["shape_uid", "shape_pt_sequence"])`:
lexicographic on the pair. -/
def shapeLeB (a b : ShapeRow) : Bool :=
  strLtB (shape_uid a) (shape_uid b)
    || (decide (shape_uid a = shape_uid b)
        && decide (a.shape_pt_sequence ≤ b.shape_pt_sequence))

/-- The sort order as a decidable relation. -/
def shapeKeyLE (a b : ShapeRow) : Prop := shapeLeB a b = true

instance : DecidableRel shapeKeyLE := fun a b => inferInstanceAs (Decidable (shapeLeB a b = true))

/-- `shapes_sorted = shapes.sort_values(["shape_uid", "shape_pt_sequence"])`. -/
def shapes_sorted (shapes : List ShapeRow) : List ShapeRow :=
  List.insertionSort shapeKeyLE shapes

/-- A shapely geometry as far as the script observes one. Coordinates are
`(x, y) = (lon, lat)` pairs; a NaN coordinate is `none`. -/
inductive Geom where
  | lineString (coords : List (Option ℚ × Option ℚ))
  | multiLineString (parts : List (List (Option ℚ × Option ℚ)))
  | other
deriving DecidableEq

/-- The group keys of `groupby("shape_uid")`: distinct uids in ascending
order (pandas sorts group keys). -/
def groupKeys (shapes : List ShapeRow) : List String :=
  ((shapes_sorted shapes).map shape_uid).dedup

/-- The rows of one `groupby("shape_uid")` group, in sorted order. -/
def groupRows (shapes : List ShapeRow) (u : String) : List ShapeRow :=
  (shapes_sorted shapes).filter (fun r => decide (shape_uid r = u))

/-- The `(lon, lat)` coordinate array handed to `LineString` for one group. -/
def groupPts (shapes : List ShapeRow) (u : String) : List (Option ℚ × Option ℚ) :=
  (groupRows shapes u).map (fun r => (r.shape_pt_lon, r.shape_pt_lat))

/-- `shapely.geometry.LineString(coords)`: a single coordinate tuple raises
(`LineString must have at least 2 coordinate tuples`); an empty coordinate
array builds an empty geometry without raising. -/
def makeLineString (pts : List (Option ℚ × Option ℚ)) : Except String Geom :=
  if pts.length = 1 then .error "LineString must have at least 2 coordinate tuples"
  else .ok (Geom.lineString pts)

/-- The `groupby(...).apply(lambda df: LineString(...))` pass over the group
keys in ascending order: the first group whose `LineString` constructor
raises aborts the whole build. -/
def linesOfKeys (shapes : List ShapeRow) : List String → Except String (List (String × Geom))
  | [] => .ok []
  | u :: us =>
      match makeLineString (groupPts shapes u) with
      | .error e => .error e
      | .ok g =>
          match linesOfKeys shapes us with
          | .error e => .error e
          | .ok rest => .ok ((u, g) :: rest)

/-- Lines 75-82: group the sorted points by `shape_uid` and build one
`LineString` per uid from its `(lon, lat)` columns in sorted order; a
single-point group makes the constructor raise. -/
def lines (shapes : List ShapeRow) : Except String (List (String × Geom)) :=
  linesOfKeys shapes (groupKeys shapes)

/-- A row of `routes_gdf` after the left merge with `shape2route` (lines
86-93); attribute cells are NaN when the uid has no `shape2route` match. -/
structure RoutesGdfRow where
  shape_uid : String
  geometry : Geom
  route_id : Cell
  route_short_name : Cell
  route_long_name : Cell
  route_color : Cell
  borough_feed : Cell
deriving DecidableEq

/-- The left merge of the lines frame with `shape2route` on `shape_uid`. -/
def routes_gdf (ls : List (String × Geom)) (s2r : List Shape2RouteRow) :
    List RoutesGdfRow :=
  ls.flatMap (fun l =>
    let ms := s2r.filter (fun r => decide (r.shape_uid = l.1))
    if ms.isEmpty then
      [{ shape_uid := l.1, geometry := l.2, route_id := none, route_short_name := none,
         route_long_name := none, route_color := none, borough_feed := none }]
    else ms.map (fun r =>
      { shape_uid := l.1, geometry := l.2, route_id := r.route_id,
        route_short_name := r.route_short_name, route_long_name := r.route_long_name,
        route_color := r.route_color, borough_feed := some r.borough_feed }))

/-- A row of `stops_gdf` (lines 99-103): the selected stop columns plus the
point geometry `Point(stop_lon, stop_lat)`. Every cast row is kept. -/
structure StopFeature where
  stop_id : Cell
  stop_name : Cell
  stop_lat : Option ℚ
  stop_lon : Option ℚ
  borough_feed : String
  geometry : Option ℚ × Option ℚ
deriving DecidableEq

/-- `stops_gdf = gpd.GeoDataFrame(stops[...], geometry=points_from_xy(lon, lat))`. -/
def stops_gdf (stops : List StopRow) : List StopFeature :=
  stops.map (fun s =>
    { stop_id := s.stop_id, stop_name := s.stop_name, stop_lat := s.stop_lat,
      stop_lon := s.stop_lon, borough_feed := s.borough_feed,
      geometry := (s.stop_lon, s.stop_lat) })

/-! ### Map renderer (lines 106-171) -/

/-- `folium.map.CustomPane(name, z_index=...)`. -/
structure CustomPane where
  name : String
  z_index : Int
deriving DecidableEq

/-- Lines 113-114: the two panes added to the map. -/
def declaredPanes : List CustomPane := [⟨"routes", 400⟩, ⟨"stops", 650⟩]

/-- The coordinates a geometry contributes to the data bounds. -/
def geomCoords : Geom → List (Option ℚ × Option ℚ)
  | .lineString cs => cs
  | .multiLineString ps => ps.flatten
  | .other => []

/-- NaN-propagating minimum, as numpy's `min` behaves on the bounds array. -/
def qminOpt (a b : Option ℚ) : Option ℚ :=
  match a, b with
  | some x, some y => some (min x y)
  | _, _ => none

/-- NaN-propagating maximum. -/
def qmaxOpt (a b : Option ℚ) : Option ℚ :=
  match a, b with
  | some x, some y => some (max x y)
  | _, _ => none

/-- `routes_gdf.total_bounds = (minx, miny, maxx, maxy)`. -/
structure Bounds where
  minx : Option ℚ
  miny : Option ℚ
  maxx : Option ℚ
  maxy : Option ℚ
deriving DecidableEq

/-- `routes_gdf.total_bounds`, `none` when there is no coordinate at all. -/
def total_bounds (rows : List RoutesGdfRow) : Option Bounds :=
  match rows.flatMap (fun r => geomCoords r.geometry) with
  | [] => none
  | p :: ps =>
      some (ps.foldl
        (fun b q =>
          { minx := qminOpt b.minx q.1, miny := qminOpt b.miny q.2,
            maxx := qmaxOpt b.maxx q.1, maxy := qmaxOpt b.maxy q.2 })
        { minx := p.1, miny := p.2, maxx := p.1, maxy := p.2 })

/-- Lines 109-110: `m.fit_bounds([[miny, minx], [maxy, maxx]])`, computed from
`routes_gdf.total_bounds` alone. -/
def fitViewport (rows : List RoutesGdfRow) :
    Option ((Option ℚ × Option ℚ) × (Option ℚ × Option ℚ)) :=
  (total_bounds rows).map (fun b => ((b.miny, b.minx), (b.maxy, b.maxx)))

/-- Lines 118-128: `line_to_latlon_coords` swaps each `(lon, lat)` to
`(lat, lon)`; unknown geometry types yield `[]`. -/
def line_to_latlon_coords : Geom → List (Option ℚ × Option ℚ)
  | .lineString cs => cs.map (fun p => (p.2, p.1))
  | .multiLineString ps => ps.flatMap (fun part => part.map (fun p => (p.2, p.1)))
  | .other => []

/-- Lines 132-136: the fixed color palette (21 entries). -/
def palette : List String :=
  ["red", "blue", "green", "purple", "orange", "darkred", "lightred", "mediumgreen",
   "darkblue", "darkgreen", "cadetblue", "darkpurple", "brown", "pink", "lightblue",
   "lightgreen", "gray", "navy", "lightgray", "maroon", "mediumyellow"]

/-- `palette[n % len(palette)]`. -/
def paletteAt (n : Nat) : String := palette.getD (n % palette.length) ""

/-- A Python dict key in `color_map`: a string, or `none` for the NaN key
(`row.get("route_id")` can be NaN, and NaN is truthy in Python, so the `or`
chain can yield it). -/
abbrev RKey := Option String

/-- Python's `a or b` over cells: NaN is truthy, the empty string is falsy. -/
def pyOr (a b : Cell) : Cell :=
  match a with
  | none => none
  | some s => if s = "" then b else some s

/-- Line 143: `route = row.get("route_id") or row.get("route_short_name") or "route"`. -/
def routeKey (row : RoutesGdfRow) : RKey :=
  pyOr (pyOr row.route_id row.route_short_name) (some "route")

/-- Lines 144-145: assign the next palette entry to an unseen key; the map is
an insertion-ordered association list, as a Python dict is. -/
def colorStep (cm : List (RKey × String)) (k : RKey) : List (RKey × String) :=
  if k ∈ cm.map Prod.fst then cm else cm ++ [(k, paletteAt cm.length)]

/-- The `color_map` dict after processing a sequence of route keys. -/
def color_map (ks : List RKey) : List (RKey × String) := ks.foldl colorStep []

/-- A `folium.PolyLine` as constructed on lines 148-154. `pane` records the
keyword argument of that constructor call; the call passes none. -/
structure PolyLine where
  locations : List (Option ℚ × Option ℚ)
  color : String
  weight : ℚ
  opacity : ℚ
  tooltip : String
  pane : Option String
deriving DecidableEq

/-- One iteration of the drawing loop (lines 142-154): update `color_map`,
then emit a polyline when the geometry has coordinates. -/
def drawRoutesStep (acc : List (RKey × String) × List PolyLine) (row : RoutesGdfRow) :
    List (RKey × String) × List PolyLine :=
  let k := routeKey row
  let cm := colorStep acc.1 k
  let coords := line_to_latlon_coords row.geometry
  (cm,
    if coords.isEmpty then acc.2
    else acc.2 ++
      [{ locations := coords, color := (cm.lookup k).getD "", weight := 4,
         opacity := mkRat 9 10, tooltip := "Route ID: " ++ cellStr k, pane := none }])

/-- The full drawing loop over `routes_gdf`: final `color_map` and polylines. -/
def drawRoutes (rows : List RoutesGdfRow) : List (RKey × String) × List PolyLine :=
  rows.foldl drawRoutesStep ([], [])

/-- A `folium.CircleMarker` as constructed on lines 160-168; again `pane`
records a keyword argument the call does not pass. -/
structure CircleMarker where
  location : Option ℚ × Option ℚ
  radius : ℚ
  color : String
  fill : Bool
  fill_opacity : ℚ
  opacity : ℚ
  tooltip : String
  pane : Option String
deriving DecidableEq

/-- folium's `validate_location`, run by the marker constructor: a NaN
coordinate raises `ValueError("Location values cannot contain NaNs.")`. -/
def validateLocation (loc : Option ℚ × Option ℚ) : Except String (Option ℚ × Option ℚ) :=
  if loc.1.isNone || loc.2.isNone then .error "Location values cannot contain NaNs."
  else .ok loc

/-- Lines 159-168: the marker loop builds one circle marker per `stops_gdf`
row at `[lat, lon]`; folium validates each location, so the loop raises at
the first stop whose coordinate is NaN and no marker list is produced. -/
def stopMarkers : List StopFeature → Except String (List CircleMarker)
  | [] => .ok []
  | s :: rest =>
      match validateLocation (s.stop_lat, s.stop_lon) with
      | .error e => .error e
      | .ok loc =>
          match stopMarkers rest with
          | .error e => .error e
          | .ok tail =>
              .ok ({ location := loc, radius := 2, color := "#111", fill := true,
                     fill_opacity := mkRat 8 10, opacity := mkRat 8 10,
                     tooltip := cellStr s.stop_name ++ " (ID: " ++ cellStr s.stop_id ++ ")",
                     pane := none } :: tail)

/-- The rendered map artifact: viewport, panes, features, the stops layer
name and the output path. -/
structure RenderedMap where
  viewport : Option ((Option ℚ × Option ℚ) × (Option ℚ × Option ℚ))
  panes : List CustomPane
  polylines : List PolyLine
  markers : List CircleMarker
  layerName : String
  outputFile : String
deriving DecidableEq

/-- Lines 106-175: build the map from `routes_gdf` and `stops_gdf`. The
viewport, panes and polylines are computed before the marker loop runs; if
the marker loop raises (a NaN stop coordinate), the run dies before
`m.save` and no artifact exists. -/
def renderMap (rg : List RoutesGdfRow) (sg : List StopFeature) : Except String RenderedMap :=
  match stopMarkers sg with
  | .error e => .error e
  | .ok mks =>
      .ok { viewport := fitViewport rg
            panes := declaredPanes
            polylines := (drawRoutes rg).2
            markers := mks
            layerName := "Stops (dots)"
            outputFile := "mta_bus_map.html" }

/-! ### The whole pipeline -/

/-- The entire script as a function of the input directory's archives: the
discovery assert, the buckets, the concats, the casts, the join, the geometry
build and the render. An `Except.error` is an uncaught Python exception, and
no output file exists in that case. -/
def runPipeline (dir : List Archive) : Except String RenderedMap :=
  let zp := zip_paths (dir.map (fun a => a.name))
  if zp.isEmpty then .error "No GTFS zips found in bus_gtfs/gtfs_*.zip"
  else
    let zips := zp.filterMap (fun n => dir.find? (fun a => decide (a.name = n)))
    do
      let shapesRaw ← concatBucket (bucket Archive.shapes zips)
      let stopsRaw ← concatBucket (bucket Archive.stops zips)
      let routesRaw ← concatBucket (bucket Archive.routes zips)
      let tripsRaw ← concatBucket (bucket Archive.trips zips)
      let shapes ← castShapes shapesRaw
      let stops ← castStops stopsRaw
      let s2r := shape2route tripsRaw routesRaw
      let ls ← lines shapes
      let rg := routes_gdf ls s2r
      let sg := stops_gdf stops
      renderMap rg sg

/-- The files the run leaves behind: `m.save` runs only after every earlier
step succeeded. -/
def writtenFiles (r : Except String RenderedMap) : List String :=
  match r with
  | .error _ => []
  | .ok m => [m.outputFile]

/-! ### Auxiliary characterizations and spec-side definitions -/

/-- The route keys that are new, in first-encounter order, given the keys
already `seen`: characterizes which keys `color_map` assigns palette
entries to, and in which order. -/
def newKeys (seen : List RKey) : List RKey → List RKey
  | [] => []
  | k :: ks => if k ∈ seen then newKeys seen ks else k :: newKeys (seen ++ [k]) ks

/-- Written from the spec's words, for comparison with the code: deduplicate
the stop table on the key `(stop_id, stop_lat, stop_lon)`, keeping first
occurrences. The script itself never performs this step. -/
def spec_dedupStops (stops : List StopRow) : List StopRow :=
  dedupByFirst (fun s => (s.stop_id, s.stop_lat, s.stop_lon)) [] stops

/-! ### Concrete inputs for witnesses and counterexamples -/

/-- The spec's C1 scenario: a stops table of 3 valid rows and 1 row with an
empty `stop_lat`, all from one feed. -/
def scenarioStops : List (RawStop × String) :=
  [(⟨some "100", some "MAIN ST", some "40.70", some "-73.90"⟩, "gtfs_m"),
   (⟨some "101", some "FIRST AV", some "40.71", some "-73.91"⟩, "gtfs_m"),
   (⟨some "102", some "SECOND AV", some "40.72", some "-73.92"⟩, "gtfs_m"),
   (⟨some "103", some "THIRD AV", none, some "-73.93"⟩, "gtfs_m")]

/-- Two feeds contributing byte-identical stop rows (an exact cross-feed
repeat in the sense of the spec's dedup key). -/
def repeatedStops : List (RawStop × String) :=
  [(⟨some "200", some "BROADWAY", some "40.5", some "-73.5"⟩, "gtfs_b"),
   (⟨some "200", some "BROADWAY", some "40.5", some "-73.5"⟩, "gtfs_m")]

/-- The bucket the loader would build from those two feeds. -/
def repeatedBucket : List (List (RawStop × String)) :=
  [[(⟨some "200", some "BROADWAY", some "40.5", some "-73.5"⟩, "gtfs_b")],
   [(⟨some "200", some "BROADWAY", some "40.5", some "-73.5"⟩, "gtfs_m")]]

/-- Two feeds both containing `shape_id = "1"` with different point
sequences, where feed `gtfs_m` contributes exactly one point: the
`LineString` constructor raises on that group. -/
def crossFeedShapes : List ShapeRow :=
  [⟨"1", some (mkRat 405 10), some (mkRat (-735) 10), 1, "gtfs_b"⟩,
   ⟨"1", some (mkRat 406 10), some (mkRat (-736) 10), 2, "gtfs_b"⟩,
   ⟨"1", some (mkRat 407 10), some (mkRat (-737) 10), 1, "gtfs_m"⟩]

/-- Two feeds both containing `shape_id = "1"` with different two-point
sequences (the spec's regression scenario, with every group well-sized). -/
def crossFeedShapes2 : List ShapeRow :=
  [⟨"1", some (mkRat 405 10), some (mkRat (-735) 10), 1, "gtfs_b"⟩,
   ⟨"1", some (mkRat 406 10), some (mkRat (-736) 10), 2, "gtfs_b"⟩,
   ⟨"1", some (mkRat 407 10), some (mkRat (-737) 10), 1, "gtfs_m"⟩,
   ⟨"1", some (mkRat 408 10), some (mkRat (-738) 10), 2, "gtfs_m"⟩]

/-- A shapes table whose single `shape_uid` group has exactly one point. -/
def singlePointShapes : List ShapeRow :=
  [⟨"9", some (mkRat 409 10), some (mkRat (-739) 10), 1, "gtfs_x"⟩]

/-- A directory whose only file does not match `gtfs_*.zip`. -/
def noZipDir : List Archive := [⟨"readme.txt", none, none, none, none⟩]

/-- Two trips referencing the same `(shape_id, borough_feed)` pair with
different routes. -/
def dupTrips : List (RawTrip × String) :=
  [(⟨some "Q1", some "7"⟩, "gtfs_q"), (⟨some "Q2", some "7"⟩, "gtfs_q")]

/-- A routes table with the attributes of route `Q1`. -/
def oneRoute : List (RawRoute × String) :=
  [(⟨some "Q1", some "Q1 SHORT", some "QUEENS ONE", some "FF0000"⟩, "gtfs_q")]

/-- A `routes_gdf` row for route `Q1` with an empty geometry. -/
def rowA : RoutesGdfRow :=
  ⟨"gtfs_q_7", Geom.lineString [], some "Q1", none, none, none, some "gtfs_q"⟩

/-- The same route key as `rowA` but a different geometry. -/
def rowB : RoutesGdfRow :=
  ⟨"gtfs_q_7", Geom.lineString [(some (mkRat 1 1), some (mkRat 2 1))],
   some "Q1", none, none, none, some "gtfs_q"⟩

/-! ## Supporting lemmas -/

theorem castCell_ok_of_castable {c : Cell} (h : castableCell c = true) :
    ∃ v, castCell c = .ok v := by
  cases c with
  | none => exact ⟨none, rfl⟩
  | some s =>
      simp only [castableCell, Option.isSome_iff_exists] at h
      obtain ⟨q, hq⟩ := h
      exact ⟨some q, by simp [castCell, hq]⟩

theorem castStops_length (rows : List (RawStop × String))
    (h : ∀ rf ∈ rows, castableCell rf.1.stop_lat = true ∧ castableCell rf.1.stop_lon = true) :
    ∃ stops, castStops rows = .ok stops ∧ stops.length = rows.length := by
  induction rows with
  | nil => exact ⟨[], rfl, rfl⟩
  | cons rf rest ih =>
      obtain ⟨hlat, hlon⟩ := h rf (List.mem_cons_self rf rest)
      obtain ⟨lat, hl⟩ := castCell_ok_of_castable hlat
      obtain ⟨lon, hn⟩ := castCell_ok_of_castable hlon
      obtain ⟨tail, htail, hlen⟩ := ih (fun x hx => h x (List.mem_cons_of_mem _ hx))
      refine ⟨{ stop_id := rf.1.stop_id, stop_name := rf.1.stop_name, stop_lat := lat,
                stop_lon := lon, borough_feed := rf.2 } :: tail, ?_, ?_⟩
      · simp [castStops, hl, hn, htail]
      · simp [hlen]

theorem concatBucket_ok {α : Type} (bs : List (List α)) (h : bs ≠ []) :
    concatBucket bs = .ok bs.flatten := by
  cases bs with
  | nil => exact absurd rfl h
  | cons b rest => rfl

/-! ## Claims -/

theorem validateLocation_ok {a b : Option ℚ} (ha : a.isSome = true) (hb : b.isSome = true) :
    validateLocation (a, b) = .ok (a, b) := by
  rcases Option.isSome_iff_exists.mp ha with ⟨x, hx⟩
  rcases Option.isSome_iff_exists.mp hb with ⟨y, hy⟩
  subst hx
  subst hy
  rfl

theorem stopMarkers_ok_of_no_nan (gdf : List StopFeature)
    (h : ∀ s ∈ gdf, s.stop_lat.isSome = true ∧ s.stop_lon.isSome = true) :
    ∃ mks, stopMarkers gdf = .ok mks ∧ mks.length = gdf.length := by
  induction gdf with
  | nil => exact ⟨[], rfl, rfl⟩
  | cons s rest ih =>
      obtain ⟨hlat, hlon⟩ := h s (List.mem_cons_self s rest)
      obtain ⟨tail, htail, hlen⟩ := ih (fun x hx => h x (List.mem_cons_of_mem _ hx))
      refine ⟨{ location := (s.stop_lat, s.stop_lon), radius := 2, color := "#111",
                fill := true, fill_opacity := mkRat 8 10, opacity := mkRat 8 10,
                tooltip := cellStr s.stop_name ++ " (ID: " ++ cellStr s.stop_id ++ ")",
                pane := none } :: tail, ?_, by simp [hlen]⟩
      simp only [stopMarkers]
      rw [validateLocation_ok hlat hlon, htail]

theorem stopMarkers_error_of_nan (gdf : List StopFeature)
    (h : ∃ s ∈ gdf, s.stop_lat = none ∨ s.stop_lon = none) :
    ∃ e, stopMarkers gdf = .error e := by
  induction gdf with
  | nil => simp at h
  | cons s rest ih =>
      by_cases hs : s.stop_lat = none ∨ s.stop_lon = none
      · refine ⟨"Location values cannot contain NaNs.", ?_⟩
        have hv : validateLocation (s.stop_lat, s.stop_lon)
            = .error "Location values cannot contain NaNs." := by
          rcases hs with hs | hs <;> simp [validateLocation, hs]
        simp only [stopMarkers]
        rw [hv]
      · rcases h with ⟨t, ht, hnan⟩
        rcases List.mem_cons.mp ht with rfl | ht2
        · exact absurd hnan hs
        · obtain ⟨e, he⟩ := ih ⟨t, ht2, hnan⟩
          cases hv : validateLocation (s.stop_lat, s.stop_lon) with
          | error e2 =>
              refine ⟨e2, ?_⟩
              simp only [stopMarkers]
              rw [hv]
          | ok loc =>
              refine ⟨e, ?_⟩
              simp only [stopMarkers]
              rw [hv, he]

/-- C1 (amended): rows whose coordinate cells are null are NOT dropped by the
casts of lines 56-57: a null survives as NaN and the row still yields one
`stops_gdf` row. The marker loop then raises folium's NaN-location error as
soon as any such row exists (so a NaN run produces no markers and no
output), while a table with all coordinates present yields exactly one
marker per row. -/
theorem C1_null_coordinates_not_dropped (rows : List (RawStop × String))
    (h : ∀ rf ∈ rows, castableCell rf.1.stop_lat = true ∧ castableCell rf.1.stop_lon = true) :
    ∃ stops, castStops rows = .ok stops ∧ stops.length = rows.length
      ∧ (stops_gdf stops).length = rows.length
      ∧ ((∀ s ∈ stops, s.stop_lat.isSome = true ∧ s.stop_lon.isSome = true) →
          ∃ mks, stopMarkers (stops_gdf stops) = .ok mks ∧ mks.length = rows.length)
      ∧ ((∃ s ∈ stops, s.stop_lat = none ∨ s.stop_lon = none) →
          ∃ e, stopMarkers (stops_gdf stops) = .error e) := by
  obtain ⟨stops, hok, hlen⟩ := castStops_length rows h
  refine ⟨stops, hok, hlen, by simp [stops_gdf, hlen], ?_, ?_⟩
  · intro hall
    have hfeat : ∀ sf ∈ stops_gdf stops, sf.stop_lat.isSome = true ∧ sf.stop_lon.isSome = true := by
      intro sf hsf
      simp only [stops_gdf, List.mem_map] at hsf
      obtain ⟨s0, hs0, rfl⟩ := hsf
      exact hall s0 hs0
    obtain ⟨mks, hmks, hmlen⟩ := stopMarkers_ok_of_no_nan (stops_gdf stops) hfeat
    refine ⟨mks, hmks, ?_⟩
    rw [hmlen]
    simp [stops_gdf, hlen]
  · intro hex
    apply stopMarkers_error_of_nan
    obtain ⟨s0, hs0, hnan⟩ := hex
    refine ⟨{ stop_id := s0.stop_id, stop_name := s0.stop_name, stop_lat := s0.stop_lat,
              stop_lon := s0.stop_lon, borough_feed := s0.borough_feed,
              geometry := (s0.stop_lon, s0.stop_lat) }, ?_, hnan⟩
    simp only [stops_gdf, List.mem_map]
    exact ⟨s0, hs0, rfl⟩

/-- C1 witness: the spec's own scenario table (3 valid rows, 1 empty
`stop_lat`) keeps all 4 rows; it contains a NaN row, so the marker branch is
the error one. -/
theorem C1_null_coordinates_not_dropped_witness :
    ∃ stops, castStops scenarioStops = Except.ok stops ∧ stops.length = 4
      ∧ (stops_gdf stops).length = 4
      ∧ ((∀ s ∈ stops, s.stop_lat.isSome = true ∧ s.stop_lon.isSome = true) →
          ∃ mks, stopMarkers (stops_gdf stops) = .ok mks ∧ mks.length = 4)
      ∧ ((∃ s ∈ stops, s.stop_lat = none ∨ s.stop_lon = none) →
          ∃ e, stopMarkers (stops_gdf stops) = .error e) :=
  C1_null_coordinates_not_dropped scenarioStops (by decide)

/-- C1 counterexample: on the spec's scenario input the built stop table has
4 rows (not 3), and the marker loop raises on the NaN row, producing no
marker list at all rather than one marker per stop. -/
theorem C1_counterexample :
    (castStops scenarioStops).toOption.map (fun stops => (stops_gdf stops).length) = some 4
    ∧ ((castStops scenarioStops).toOption.bind
        (fun stops => (stopMarkers (stops_gdf stops)).toOption)) = none
    ∧ (4 : ℕ) ≠ 3 := by
  refine ⟨by decide, by decide, by decide⟩

/-- C2 (amended): the pipeline performs no deduplication of the stop table:
concatenation keeps every tagged input row, multiplicities included, so exact
repeats across feeds are retained. -/
theorem C2_concat_keeps_repeats (bs : List (List (RawStop × String))) (h : bs ≠ []) :
    ∃ rows, concatBucket bs = .ok rows ∧
      rows.length = (bs.map List.length).sum ∧
      ∀ r : RawStop × String, rows.count r = (bs.map (fun b => b.count r)).sum := by
  refine ⟨bs.flatten, concatBucket_ok bs h, ?_, ?_⟩
  · exact List.length_flatten bs
  · intro r
    simpa using List.count_flatten r bs

/-- C2 witness: two feeds with byte-identical stop rows both survive
concatenation. -/
theorem C2_concat_keeps_repeats_witness :
    ∃ rows, concatBucket repeatedBucket = Except.ok rows ∧
      rows.length = 2 ∧
      ∀ r : RawStop × String, rows.count r = (repeatedBucket.map (fun b => b.count r)).sum :=
  C2_concat_keeps_repeats repeatedBucket (by decide)

/-- C2 counterexample: on a table with an exact cross-feed repeat, the stop
table the code builds is not invariant under the spec's dedup on
`(stop_id, stop_lat, stop_lon)`: the code never deduplicated it. -/
theorem C2_counterexample :
    (castStops repeatedStops).toOption.map
        (fun stops => decide (spec_dedupStops stops = stops))
      = some false := by
  decide

theorem drawRoutes_pane_none (rows : List RoutesGdfRow) :
    ∀ pl ∈ (drawRoutes rows).2, pl.pane = none := by
  suffices h : ∀ (acc : List (RKey × String) × List PolyLine),
      (∀ pl ∈ acc.2, pl.pane = none) →
      ∀ pl ∈ (rows.foldl drawRoutesStep acc).2, pl.pane = none from
    h ([], []) (by simp)
  induction rows with
  | nil =>
      intro acc hacc
      simpa using hacc
  | cons row rest ih =>
      intro acc hacc
      simp only [List.foldl_cons]
      apply ih
      intro pl hpl
      simp only [drawRoutesStep] at hpl
      split at hpl
      · exact hacc pl hpl
      · rcases List.mem_append.mp hpl with h1 | h1
        · exact hacc pl h1
        · rw [List.mem_singleton.mp h1]

theorem stopMarkers_pane_none (gdf : List StopFeature) :
    ∀ mks, stopMarkers gdf = .ok mks → ∀ mk ∈ mks, mk.pane = none := by
  induction gdf with
  | nil =>
      intro mks h mk hmk
      simp only [stopMarkers, Except.ok.injEq] at h
      rw [← h] at hmk
      simp at hmk
  | cons s rest ih =>
      intro mks h mk hmk
      simp only [stopMarkers] at h
      cases hv : validateLocation (s.stop_lat, s.stop_lon) with
      | error e => rw [hv] at h; simp at h
      | ok loc =>
          rw [hv] at h
          cases hr : stopMarkers rest with
          | error e => rw [hr] at h; simp at h
          | ok tail =>
              rw [hr] at h
              simp only [Except.ok.injEq] at h
              subst h
              rcases List.mem_cons.mp hmk with rfl | hmk2
              · rfl
              · exact ih tail hr mk hmk2

/-- C4 (code evaluation): lines 113-114 declare the panes `routes` (z 400)
and `stops` (z 650), but neither `folium.PolyLine` (lines 148-154) nor
`folium.CircleMarker` (lines 160-168) is constructed with a `pane` argument:
every polyline the loop builds, every marker the (fallible) marker loop
builds, and every feature of any successfully rendered map carries no pane
assignment. -/
theorem C4_panes_declared_but_unused :
    declaredPanes = [⟨"routes", 400⟩, ⟨"stops", 650⟩]
    ∧ ∀ rg sg, (∀ pl ∈ (drawRoutes rg).2, pl.pane = none)
        ∧ (∀ mks, stopMarkers sg = .ok mks → ∀ mk ∈ mks, mk.pane = none)
        ∧ ∀ m, renderMap rg sg = .ok m →
            (∀ pl ∈ m.polylines, pl.pane = none) ∧ (∀ mk ∈ m.markers, mk.pane = none) := by
  refine ⟨rfl, fun rg sg =>
    ⟨fun pl hpl => drawRoutes_pane_none rg pl hpl, stopMarkers_pane_none sg, ?_⟩⟩
  intro m hm
  simp only [renderMap] at hm
  cases hmk : stopMarkers sg with
  | error e => rw [hmk] at hm; simp at hm
  | ok mks =>
      rw [hmk] at hm
      simp only [Except.ok.injEq] at hm
      subst hm
      exact ⟨fun pl hpl => drawRoutes_pane_none rg pl hpl, stopMarkers_pane_none sg mks hmk⟩

/-- C5: with zero matching archives the discovery assert fires: the run ends
in a fatal error before any table processing and writes no output file. -/
theorem C5_zero_archives_fatal (dir : List Archive)
    (h : (dir.map (fun a => a.name)).filter matchesZipPattern = []) :
    runPipeline dir = .error "No GTFS zips found in bus_gtfs/gtfs_*.zip"
    ∧ writtenFiles (runPipeline dir) = [] := by
  have hz : zip_paths (dir.map (fun a => a.name)) = [] := by
    simp [zip_paths, h, List.insertionSort]
  refine ⟨?_, ?_⟩
  · simp [runPipeline, hz]
  · simp [runPipeline, hz, writtenFiles]

/-- C5 witness: a directory holding only `readme.txt` is fatal and leaves no
output. -/
theorem C5_zero_archives_fatal_witness :
    runPipeline noZipDir = Except.error "No GTFS zips found in bus_gtfs/gtfs_*.zip"
    ∧ writtenFiles (runPipeline noZipDir) = [] :=
  C5_zero_archives_fatal noZipDir (by decide)

/-- C9: the initial viewport is fit to `routes_gdf.total_bounds` alone
(line 110 runs before the marker loop): every successfully rendered map has
viewport `fitViewport rg`, a function of the route rows only, so two renders
over the same routes have equal viewports whatever their stop tables. -/
theorem C9_viewport_ignores_stops (rg : List RoutesGdfRow) (sg1 sg2 : List StopFeature) :
    (∀ m, renderMap rg sg1 = .ok m → m.viewport = fitViewport rg)
    ∧ ∀ m1 m2, renderMap rg sg1 = .ok m1 → renderMap rg sg2 = .ok m2 →
        m1.viewport = m2.viewport := by
  have hview : ∀ sg : List StopFeature, ∀ m, renderMap rg sg = .ok m →
      m.viewport = fitViewport rg := by
    intro sg m hm
    simp only [renderMap] at hm
    cases hmk : stopMarkers sg with
    | error e => rw [hmk] at hm; simp at hm
    | ok mks =>
        rw [hmk] at hm
        simp only [Except.ok.injEq] at hm
        subst hm
        rfl
  exact ⟨hview sg1, fun m1 m2 h1 h2 => (hview sg1 m1 h1).trans (hview sg2 m2 h2).symm⟩

/-- C10: route colors are a deterministic function of the route-key sequence:
renders whose rows project to the same keys in the same order assign every
key the same color. -/
theorem C10_color_assignment_deterministic (rows1 rows2 : List RoutesGdfRow)
    (h : rows1.map routeKey = rows2.map routeKey) :
    color_map (rows1.map routeKey) = color_map (rows2.map routeKey)
    ∧ ∀ k, (color_map (rows1.map routeKey)).lookup k
        = (color_map (rows2.map routeKey)).lookup k := by
  rw [h]
  exact ⟨rfl, fun k => rfl⟩

/-- C10 witness: two rows that differ in geometry but share the route key
get identical color maps. -/
theorem C10_color_assignment_deterministic_witness :
    color_map ([rowA].map routeKey) = color_map ([rowB].map routeKey)
    ∧ ∀ k, (color_map ([rowA].map routeKey)).lookup k
        = (color_map ([rowB].map routeKey)).lookup k :=
  C10_color_assignment_deterministic [rowA] [rowB] (by decide)

theorem charListLt_irrefl : ∀ cs : List Char, charListLt cs cs = false
  | [] => rfl
  | c :: cs => by simp [charListLt, charListLt_irrefl cs]

theorem charListLt_trans (as : List Char) :
    ∀ bs cs, charListLt as bs = true → charListLt bs cs = true → charListLt as cs = true := by
  induction as with
  | nil =>
      intro bs cs h1 h2
      cases bs with
      | nil => simp [charListLt] at h1
      | cons b bs =>
          cases cs with
          | nil => simp [charListLt] at h2
          | cons c cs => simp [charListLt]
  | cons a as ih =>
      intro bs cs h1 h2
      cases bs with
      | nil => simp [charListLt] at h1
      | cons b bs =>
          cases cs with
          | nil => simp [charListLt] at h2
          | cons c cs =>
              simp only [charListLt, Bool.or_eq_true, Bool.and_eq_true,
                decide_eq_true_eq] at h1 h2 ⊢
              rcases h1 with h1 | ⟨h1e, h1s⟩
              · rcases h2 with h2 | ⟨h2e, h2s⟩
                · exact Or.inl (lt_trans h1 h2)
                · exact Or.inl (by rw [← h2e]; exact h1)
              · rcases h2 with h2 | ⟨h2e, h2s⟩
                · exact Or.inl (by rw [h1e]; exact h2)
                · exact Or.inr ⟨h1e.trans h2e, ih bs cs h1s h2s⟩

theorem charListLt_connex :
    ∀ as bs : List Char, charListLt as bs = false → charListLt bs as = false → as = bs := by
  intro as
  induction as with
  | nil =>
      intro bs h1 _
      cases bs with
      | nil => rfl
      | cons b bs => simp [charListLt] at h1
  | cons a as ih =>
      intro bs h1 h2
      cases bs with
      | nil => simp [charListLt] at h2
      | cons b bs =>
          simp only [charListLt, Bool.or_eq_false_iff, Bool.and_eq_false_iff,
            decide_eq_false_iff_not] at h1 h2
          have hab : a = b := le_antisymm (not_lt.mp h2.1) (not_lt.mp h1.1)
          rcases h1.2 with h1' | h1'
          · exact absurd hab h1'
          · rcases h2.2 with h2' | h2'
            · exact absurd hab.symm h2'
            · rw [hab, ih bs h1' h2']

theorem strLtB_irrefl (s : String) : strLtB s s = false := charListLt_irrefl s.data

theorem strLtB_trans {s t u : String} (h1 : strLtB s t = true) (h2 : strLtB t u = true) :
    strLtB s u = true :=
  charListLt_trans s.data t.data u.data h1 h2

theorem strLtB_connex {s t : String} (h1 : strLtB s t = false) (h2 : strLtB t s = false) :
    s = t :=
  String.ext (charListLt_connex s.data t.data h1 h2)

theorem shapeKeyLE_total (a b : ShapeRow) : shapeKeyLE a b ∨ shapeKeyLE b a := by
  unfold shapeKeyLE shapeLeB
  cases hab : strLtB (shape_uid a) (shape_uid b) with
  | true => exact Or.inl (by simp [hab])
  | false =>
      cases hba : strLtB (shape_uid b) (shape_uid a) with
      | true => exact Or.inr (by simp [hba])
      | false =>
          have he := strLtB_connex hab hba
          rcases le_total a.shape_pt_sequence b.shape_pt_sequence with hle | hle
          · exact Or.inl (by simp [hab, he, hle])
          · exact Or.inr (by simp [hba, he.symm, hle])

theorem shapeKeyLE_trans (a b c : ShapeRow)
    (h1 : shapeKeyLE a b) (h2 : shapeKeyLE b c) : shapeKeyLE a c := by
  unfold shapeKeyLE shapeLeB at h1 h2 ⊢
  simp only [Bool.or_eq_true, Bool.and_eq_true, decide_eq_true_eq] at h1 h2 ⊢
  rcases h1 with h1 | ⟨h1e, h1s⟩
  · rcases h2 with h2 | ⟨h2e, h2s⟩
    · exact Or.inl (strLtB_trans h1 h2)
    · exact Or.inl (by rw [← h2e]; exact h1)
  · rcases h2 with h2 | ⟨h2e, h2s⟩
    · exact Or.inl (by rw [h1e]; exact h2)
    · exact Or.inr ⟨h1e.trans h2e, le_trans h1s h2s⟩

theorem shapeKeyLE_same_uid {a b : ShapeRow} (he : shape_uid a = shape_uid b)
    (h : shapeKeyLE a b) : a.shape_pt_sequence ≤ b.shape_pt_sequence := by
  unfold shapeKeyLE shapeLeB at h
  simp only [Bool.or_eq_true, Bool.and_eq_true, decide_eq_true_eq] at h
  rcases h with h | ⟨_, hs⟩
  · rw [he] at h
    exact absurd h (by simp [strLtB_irrefl])
  · exact hs

theorem shapes_sorted_perm (shapes : List ShapeRow) : (shapes_sorted shapes).Perm shapes :=
  List.perm_insertionSort shapeKeyLE shapes

theorem shapes_sorted_pairwise (shapes : List ShapeRow) :
    (shapes_sorted shapes).Pairwise shapeKeyLE := by
  haveI : IsTotal ShapeRow shapeKeyLE := ⟨shapeKeyLE_total⟩
  haveI : IsTrans ShapeRow shapeKeyLE := ⟨shapeKeyLE_trans⟩
  exact List.sorted_insertionSort shapeKeyLE shapes

theorem mem_groupKeys {shapes : List ShapeRow} {u : String} :
    u ∈ groupKeys shapes ↔ u ∈ shapes.map shape_uid := by
  rw [groupKeys, List.mem_dedup]
  exact ((shapes_sorted_perm shapes).map shape_uid).mem_iff

theorem groupPts_length (shapes : List ShapeRow) (u : String) :
    (groupPts shapes u).length = (groupRows shapes u).length :=
  List.length_map _ _

theorem linesOfKeys_ok_of (shapes : List ShapeRow) :
    ∀ us : List String, (∀ u ∈ us, (groupRows shapes u).length ≠ 1) →
      linesOfKeys shapes us
        = .ok (us.map (fun u => (u, Geom.lineString (groupPts shapes u)))) := by
  intro us
  induction us with
  | nil => intro _; rfl
  | cons u us ih =>
      intro h
      have hu : ¬(groupPts shapes u).length = 1 := by
        rw [groupPts_length]
        exact h u (List.mem_cons_self u us)
      have hmk : makeLineString (groupPts shapes u)
          = .ok (Geom.lineString (groupPts shapes u)) := by
        simp [makeLineString, hu]
      simp only [linesOfKeys]
      rw [hmk, ih (fun x hx => h x (List.mem_cons_of_mem _ hx))]
      rfl

theorem linesOfKeys_mem_ok (shapes : List ShapeRow) :
    ∀ us ls, linesOfKeys shapes us = .ok ls →
      ls = us.map (fun u => (u, Geom.lineString (groupPts shapes u))) := by
  intro us
  induction us with
  | nil =>
      intro ls h
      simp only [linesOfKeys, Except.ok.injEq] at h
      exact h.symm
  | cons u us ih =>
      intro ls h
      simp only [linesOfKeys] at h
      cases hm : makeLineString (groupPts shapes u) with
      | error e => rw [hm] at h; simp at h
      | ok g =>
          rw [hm] at h
          cases hr : linesOfKeys shapes us with
          | error e => rw [hr] at h; simp at h
          | ok rest =>
              rw [hr] at h
              simp only [Except.ok.injEq] at h
              have hg : g = Geom.lineString (groupPts shapes u) := by
                by_cases hlen : (groupPts shapes u).length = 1
                · simp [makeLineString, hlen] at hm
                · simp [makeLineString, hlen] at hm
                  exact hm.symm
              rw [← h, List.map_cons, ← ih rest hr, hg]

theorem linesOfKeys_error_of (shapes : List ShapeRow) :
    ∀ us : List String, (∃ u ∈ us, (groupRows shapes u).length = 1) →
      ∃ e, linesOfKeys shapes us = .error e := by
  intro us
  induction us with
  | nil => intro h; simp at h
  | cons u us ih =>
      intro h
      by_cases hu : (groupRows shapes u).length = 1
      · refine ⟨"LineString must have at least 2 coordinate tuples", ?_⟩
        have hmk : makeLineString (groupPts shapes u)
            = .error "LineString must have at least 2 coordinate tuples" := by
          simp [makeLineString, groupPts_length, hu]
        simp only [linesOfKeys]
        rw [hmk]
      · rcases h with ⟨u', hu', hlen⟩
        rcases List.mem_cons.mp hu' with rfl | hu2
        · exact absurd hlen hu
        · obtain ⟨e, he⟩ := ih ⟨u', hu2, hlen⟩
          cases hm : makeLineString (groupPts shapes u) with
          | error e2 =>
              refine ⟨e2, ?_⟩
              simp only [linesOfKeys]
              rw [hm]
          | ok g =>
              refine ⟨e, ?_⟩
              simp only [linesOfKeys]
              rw [hm, he]

theorem uid_append_injective {f1 f2 sid : String}
    (h : f1 ++ "_" ++ sid = f2 ++ "_" ++ sid) : f1 = f2 := by
  have hd := congrArg String.data h
  simp only [String.data_append] at hd
  exact String.ext (List.append_cancel_right (List.append_cancel_right hd))

/-- C3 (amended): two feeds with the same local `shape_id` get distinct
`shape_uid`s unconditionally; and when every present uid's group has at
least two points (so the `LineString` constructor does not raise), the
grouped build succeeds and contains one distinct geometry per uid, both
feed-qualified keys included, so nothing is merged or overwritten. -/
theorem C3_shape_uid_distinct (shapes : List ShapeRow) (f1 f2 sid : String)
    (hne : f1 ≠ f2)
    (h1 : ∃ r ∈ shapes, r.borough_feed = f1 ∧ r.shape_id = sid)
    (h2 : ∃ r ∈ shapes, r.borough_feed = f2 ∧ r.shape_id = sid)
    (hsize : ∀ u ∈ shapes.map shape_uid, 2 ≤ (groupRows shapes u).length) :
    (f1 ++ "_" ++ sid) ≠ (f2 ++ "_" ++ sid)
    ∧ ∃ ls, lines shapes = .ok ls
        ∧ (f1 ++ "_" ++ sid) ∈ ls.map Prod.fst
        ∧ (f2 ++ "_" ++ sid) ∈ ls.map Prod.fst
        ∧ (ls.map Prod.fst).Nodup := by
  have hok : lines shapes
      = .ok ((groupKeys shapes).map (fun u => (u, Geom.lineString (groupPts shapes u)))) := by
    apply linesOfKeys_ok_of
    intro u hu
    have h2le := hsize u (mem_groupKeys.mp hu)
    omega
  have hkeys : ((groupKeys shapes).map
      (fun u => (u, Geom.lineString (groupPts shapes u)))).map Prod.fst
      = groupKeys shapes := by
    simp [List.map_map, Function.comp_def]
  have hmem : ∀ f : String, (∃ r ∈ shapes, r.borough_feed = f ∧ r.shape_id = sid) →
      (f ++ "_" ++ sid) ∈ groupKeys shapes := by
    rintro f ⟨r, hr, hf, hs⟩
    exact mem_groupKeys.mpr (List.mem_map.mpr ⟨r, hr, by simp [shape_uid, hf, hs]⟩)
  refine ⟨fun hcontra => hne (uid_append_injective hcontra),
    (groupKeys shapes).map (fun u => (u, Geom.lineString (groupPts shapes u))),
    hok, ?_, ?_, ?_⟩
  · rw [hkeys]
    exact hmem f1 h1
  · rw [hkeys]
    exact hmem f2 h2
  · rw [hkeys, groupKeys]
    exact List.nodup_dedup _

/-- C3 witness: the spec's regression scenario with two points per feed,
feeds `gtfs_b` and `gtfs_m` both containing `shape_id = "1"`. -/
theorem C3_shape_uid_distinct_witness :
    ("gtfs_b" ++ "_" ++ "1") ≠ ("gtfs_m" ++ "_" ++ "1")
    ∧ ∃ ls, lines crossFeedShapes2 = .ok ls
        ∧ ("gtfs_b" ++ "_" ++ "1") ∈ ls.map Prod.fst
        ∧ ("gtfs_m" ++ "_" ++ "1") ∈ ls.map Prod.fst
        ∧ (ls.map Prod.fst).Nodup :=
  C3_shape_uid_distinct crossFeedShapes2 "gtfs_b" "gtfs_m" "1"
    (by decide) (by decide) (by decide) (by decide)

/-- C3 counterexample: with feeds `gtfs_b` (two points) and `gtfs_m` (one
point) both carrying `shape_id = "1"`, the `LineString` constructor raises
on the single-point group: the build yields no geometries at all, not two
distinct geometries. -/
theorem C3_counterexample :
    (∃ r ∈ crossFeedShapes, r.borough_feed = "gtfs_b" ∧ r.shape_id = "1")
    ∧ (∃ r ∈ crossFeedShapes, r.borough_feed = "gtfs_m" ∧ r.shape_id = "1")
    ∧ (lines crossFeedShapes).toOption = none := by
  refine ⟨by decide, by decide, by decide⟩

/-- C6 (amended): the builder sorts all points by `(shape_uid, sequence)`
ascending (a permutation of the input: nothing is validated or dropped,
whatever the sequence values); the grouped build succeeds exactly when no
uid's group is a single point, raising the `LineString` constructor error
otherwise, and on success yields exactly one line per distinct uid whose
vertex list is the uid's points in the sorted order. -/
theorem C6_sort_and_group (shapes : List ShapeRow) :
    (shapes_sorted shapes).Perm shapes
    ∧ (shapes_sorted shapes).Pairwise shapeKeyLE
    ∧ ((∀ u ∈ shapes.map shape_uid, (groupRows shapes u).length ≠ 1) →
        ∃ ls, lines shapes = .ok ls)
    ∧ ((∃ u ∈ shapes.map shape_uid, (groupRows shapes u).length = 1) →
        ∃ e, lines shapes = .error e)
    ∧ ∀ ls, lines shapes = .ok ls →
        (ls.map Prod.fst).Nodup
        ∧ (∀ u, u ∈ ls.map Prod.fst ↔ u ∈ shapes.map shape_uid)
        ∧ ∀ u geom, (u, geom) ∈ ls →
            geom = Geom.lineString (groupPts shapes u)
            ∧ (groupRows shapes u).Pairwise
                (fun a b => a.shape_pt_sequence ≤ b.shape_pt_sequence)
            ∧ (groupRows shapes u).Perm
                (shapes.filter (fun r => decide (shape_uid r = u))) := by
  refine ⟨shapes_sorted_perm shapes, shapes_sorted_pairwise shapes, ?_, ?_, ?_⟩
  · intro h
    exact ⟨_, linesOfKeys_ok_of shapes (groupKeys shapes)
      (fun u hu => h u (mem_groupKeys.mp hu))⟩
  · rintro ⟨u, hu, hlen⟩
    exact linesOfKeys_error_of shapes (groupKeys shapes) ⟨u, mem_groupKeys.mpr hu, hlen⟩
  · intro ls hok
    have hls := linesOfKeys_mem_ok shapes (groupKeys shapes) ls hok
    have hkeys : ls.map Prod.fst = groupKeys shapes := by
      rw [hls]
      simp [List.map_map, Function.comp_def]
    refine ⟨?_, ?_, ?_⟩
    · rw [hkeys, groupKeys]
      exact List.nodup_dedup _
    · intro u
      rw [hkeys]
      exact mem_groupKeys
    · intro u geom hmem
      rw [hls] at hmem
      simp only [List.mem_map] at hmem
      obtain ⟨u', hu', heq⟩ := hmem
      have hfst : u' = u := congrArg Prod.fst heq
      have hsnd := congrArg Prod.snd heq
      subst hfst
      refine ⟨hsnd.symm, ?_, ?_⟩
      · simp only [groupRows]
        have hp := List.Pairwise.sublist
          (@List.filter_sublist ShapeRow (fun r => decide (shape_uid r = u'))
            (shapes_sorted shapes))
          (shapes_sorted_pairwise shapes)
        refine hp.imp_of_mem ?_
        intro a b ha hb hab
        have ha' := (List.mem_filter.mp ha).2
        have hb' := (List.mem_filter.mp hb).2
        simp only [decide_eq_true_eq] at ha' hb'
        exact shapeKeyLE_same_uid (ha'.trans hb'.symm) hab
      · simp only [groupRows]
        exact (shapes_sorted_perm shapes).filter _

/-- C6 counterexample: a table whose only uid group has exactly one point
makes the geometry build raise: the uid is present, yet no line list is
produced, so there is no line per shape_uid. -/
theorem C6_counterexample :
    "gtfs_x_9" ∈ singlePointShapes.map shape_uid
    ∧ (lines singlePointShapes).toOption = none := by
  refine ⟨by decide, by decide⟩

theorem dedupByFirst_filter {α β : Type} [DecidableEq β] (f : α → β) (k : β) :
    ∀ (seen : List β) (l : List α),
      (dedupByFirst f seen l).filter (fun a => decide (f a = k))
        = if k ∈ seen then [] else (l.filter (fun a => decide (f a = k))).take 1 := by
  intro seen l
  induction l generalizing seen with
  | nil => simp [dedupByFirst]
  | cons a l ih =>
      by_cases hmem : f a ∈ seen
      · rw [show dedupByFirst f seen (a :: l) = dedupByFirst f seen l from by
          simp [dedupByFirst, hmem]]
        rw [ih seen]
        by_cases hk : f a = k
        · have hks : k ∈ seen := hk ▸ hmem
          simp [hks]
        · simp [List.filter_cons, hk]
      · rw [show dedupByFirst f seen (a :: l) = a :: dedupByFirst f (f a :: seen) l from by
          simp [dedupByFirst, hmem]]
        by_cases hk : f a = k
        · subst hk
          rw [List.filter_cons_of_pos (by simp), ih (f a :: seen),
            if_pos (List.mem_cons_self (f a) seen), if_neg hmem,
            List.filter_cons_of_pos (by simp)]
          rfl
        · rw [List.filter_cons_of_neg (by simp [hk]), ih (f a :: seen),
            List.filter_cons_of_neg (by simp [hk])]
          have hiff : k ∈ f a :: seen ↔ k ∈ seen := by
            constructor
            · intro hx
              rcases List.mem_cons.mp hx with rfl | hx
              · exact absurd rfl hk
              · exact hx
            · exact fun hx => List.mem_cons_of_mem _ hx
          simp only [hiff]

theorem trips_dropna_eq_self (ts : List (RawTrip × String))
    (h : ∀ tf ∈ ts, tf.1.route_id.isSome = true ∧ tf.1.shape_id.isSome = true) :
    trips_dropna ts = ts :=
  List.filter_eq_self.mpr (fun tf htf => by simp [(h tf htf).1, (h tf htf).2])

theorem head?_of_mem_take_one {α : Type} {l : List α} {x : α} (h : x ∈ l.take 1) :
    l.head? = some x := by
  rw [List.take_one] at h
  cases hh : l.head? with
  | none => rw [hh] at h; simp at h
  | some y => rw [hh] at h; simp at h; rw [h]

/-- C8: after `dropna`, `drop_duplicates(["shape_id", "borough_feed"])` keeps
exactly the first trip per key, so every `shape2route` row carries the
`route_id` of the first matching trip in input order, and its route
attributes come from a routes row matching `(route_id, borough_feed)` (or
are NaN when no routes row matches). -/
theorem C8_first_trip_kept (trips : List (RawTrip × String)) (routes : List (RawRoute × String))
    (h : ∀ tf ∈ trips, tf.1.route_id.isSome = true ∧ tf.1.shape_id.isSome = true) :
    (∀ sid feed,
      (dedupByFirst tripKey [] (trips_dropna trips)).filter
          (fun tf => decide (tripKey tf = (some sid, feed)))
        = (trips.filter (fun tf => decide (tripKey tf = (some sid, feed)))).take 1)
    ∧ ∀ row ∈ shape2route trips routes,
        (∃ tf, (trips.filter
              (fun tf2 => decide (tripKey tf2 = (row.shape_id, row.borough_feed)))).head?
            = some tf
          ∧ row.route_id = tf.1.route_id ∧ row.shape_id = tf.1.shape_id)
        ∧ ((∃ rf ∈ routes, rf.1.route_id = row.route_id ∧ rf.2 = row.borough_feed
              ∧ row.route_short_name = rf.1.route_short_name
              ∧ row.route_long_name = rf.1.route_long_name
              ∧ row.route_color = rf.1.route_color)
          ∨ ((∀ rf ∈ routes, ¬(rf.1.route_id = row.route_id ∧ rf.2 = row.borough_feed))
              ∧ row.route_short_name = none ∧ row.route_long_name = none
              ∧ row.route_color = none)) := by
  have hdropna := trips_dropna_eq_self trips h
  constructor
  · intro sid feed
    rw [dedupByFirst_filter tripKey (some sid, feed) [] (trips_dropna trips), hdropna]
    simp
  · intro row hrow
    simp only [shape2route, List.mem_flatMap] at hrow
    obtain ⟨tf, htf, hbr⟩ := hrow
    have hchar := dedupByFirst_filter tripKey (tripKey tf) [] (trips_dropna trips)
    rw [if_neg (List.not_mem_nil _)] at hchar
    have htf_filter : tf ∈ (dedupByFirst tripKey [] (trips_dropna trips)).filter
        (fun a => decide (tripKey a = tripKey tf)) :=
      List.mem_filter.mpr ⟨htf, by simp⟩
    rw [hchar, hdropna] at htf_filter
    have hhead : (trips.filter (fun a => decide (tripKey a = tripKey tf))).head? = some tf :=
      head?_of_mem_take_one htf_filter
    by_cases hms : (routes.filter
        (fun rf => decide (rf.1.route_id = tf.1.route_id ∧ rf.2 = tf.2))).isEmpty
    · rw [if_pos hms] at hbr
      simp only [List.mem_singleton] at hbr
      subst hbr
      refine ⟨⟨tf, ?_, rfl, rfl⟩, Or.inr ⟨?_, rfl, rfl, rfl⟩⟩
      · exact hhead
      · intro rf hrf hc
        have hmemf : rf ∈ routes.filter
            (fun rf => decide (rf.1.route_id = tf.1.route_id ∧ rf.2 = tf.2)) :=
          List.mem_filter.mpr ⟨hrf, by simp [hc.1, hc.2]⟩
        rw [List.isEmpty_iff.mp hms] at hmemf
        exact List.not_mem_nil rf hmemf
    · rw [if_neg hms] at hbr
      simp only [List.mem_map] at hbr
      obtain ⟨rf, hrf_mem, hbr⟩ := hbr
      subst hbr
      have hrf := List.mem_filter.mp hrf_mem
      simp only [decide_eq_true_eq] at hrf
      exact ⟨⟨tf, hhead, rfl, rfl⟩, Or.inl ⟨rf, hrf.1, hrf.2.1, hrf.2.2, rfl, rfl, rfl⟩⟩

/-- C8 witness: two trips sharing `(shape_id, feed) = ("7", "gtfs_q")`, one
routes row for `Q1`. -/
theorem C8_first_trip_kept_witness :
    (∀ sid feed,
      (dedupByFirst tripKey [] (trips_dropna dupTrips)).filter
          (fun tf => decide (tripKey tf = (some sid, feed)))
        = (dupTrips.filter (fun tf => decide (tripKey tf = (some sid, feed)))).take 1)
    ∧ ∀ row ∈ shape2route dupTrips oneRoute,
        (∃ tf, (dupTrips.filter
              (fun tf2 => decide (tripKey tf2 = (row.shape_id, row.borough_feed)))).head?
            = some tf
          ∧ row.route_id = tf.1.route_id ∧ row.shape_id = tf.1.shape_id)
        ∧ ((∃ rf ∈ oneRoute, rf.1.route_id = row.route_id ∧ rf.2 = row.borough_feed
              ∧ row.route_short_name = rf.1.route_short_name
              ∧ row.route_long_name = rf.1.route_long_name
              ∧ row.route_color = rf.1.route_color)
          ∨ ((∀ rf ∈ oneRoute, ¬(rf.1.route_id = row.route_id ∧ rf.2 = row.borough_feed))
              ∧ row.route_short_name = none ∧ row.route_long_name = none
              ∧ row.route_color = none)) :=
  C8_first_trip_kept dupTrips oneRoute (by decide)

theorem mem_newKeys {l : List RKey} :
    ∀ {seen : List RKey} {k : RKey}, k ∈ newKeys seen l ↔ k ∈ l ∧ k ∉ seen := by
  induction l with
  | nil => intro seen k; simp [newKeys]
  | cons a l ih =>
      intro seen k
      by_cases ha : a ∈ seen
      · rw [newKeys, if_pos ha, ih]
        constructor
        · exact fun ⟨hl, hs⟩ => ⟨List.mem_cons_of_mem _ hl, hs⟩
        · rintro ⟨hal, hs⟩
          rcases List.mem_cons.mp hal with rfl | hl
          · exact absurd ha hs
          · exact ⟨hl, hs⟩
      · rw [newKeys, if_neg ha]
        constructor
        · intro hx
          rcases List.mem_cons.mp hx with rfl | hx
          · exact ⟨List.mem_cons_self _ _, ha⟩
          · obtain ⟨hl, hs⟩ := ih.mp hx
            refine ⟨List.mem_cons_of_mem _ hl, fun hcon => hs ?_⟩
            simp [hcon]
        · rintro ⟨hal, hs⟩
          rcases List.mem_cons.mp hal with rfl | hl
          · exact List.mem_cons_self _ _
          · by_cases hka : k = a
            · subst hka
              exact List.mem_cons_self _ _
            · refine List.mem_cons_of_mem _ (ih.mpr ⟨hl, ?_⟩)
              simp [hs, hka]

theorem newKeys_nodup (l : List RKey) : ∀ seen : List RKey, (newKeys seen l).Nodup := by
  induction l with
  | nil => intro seen; simp [newKeys]
  | cons a l ih =>
      intro seen
      by_cases ha : a ∈ seen
      · rw [newKeys, if_pos ha]
        exact ih seen
      · rw [newKeys, if_neg ha]
        refine List.nodup_cons.mpr ⟨?_, ih (seen ++ [a])⟩
        intro hmem
        exact (mem_newKeys.mp hmem).2 (by simp)

theorem map_fst_mapIdx_pair (f : ℕ → String) :
    ∀ (nk : List RKey) (off : ℕ),
      (nk.mapIdx (fun i k => (k, f (off + i)))).map Prod.fst = nk := by
  intro nk
  induction nk with
  | nil => intro off; simp
  | cons a nk ih =>
      intro off
      rw [List.mapIdx_cons]
      simp only [List.map_cons]
      refine congrArg (List.cons a) ?_
      have := ih (off + 1)
      calc (nk.mapIdx fun i k => (k, f (off + (i + 1)))).map Prod.fst
          = (nk.mapIdx fun i k => (k, f (off + 1 + i))).map Prod.fst := by
            have harith : (fun i (k : RKey) => ((k, f (off + (i + 1))) : RKey × String))
                = fun i k => (k, f (off + 1 + i)) := by
              funext i k
              have : off + (i + 1) = off + 1 + i := by omega
              rw [this]
            rw [harith]
        _ = nk := ih (off + 1)

theorem lookup_append_left {β : Type} (l1 l2 : List (RKey × β)) (k : RKey)
    (h : k ∈ l1.map Prod.fst) : (l1 ++ l2).lookup k = l1.lookup k := by
  induction l1 with
  | nil => simp at h
  | cons p l1 ih =>
      rw [List.cons_append, List.lookup_cons, List.lookup_cons]
      cases hbe : k == p.1 with
      | true => rfl
      | false =>
          apply ih
          rcases List.mem_cons.mp h with hk | hk
          · rw [hk] at hbe
            simp at hbe
          · exact hk

theorem foldl_colorStep (l : List RKey) :
    ∀ cm : List (RKey × String),
      l.foldl colorStep cm
        = cm ++ (newKeys (cm.map Prod.fst) l).mapIdx (fun i k => (k, paletteAt (cm.length + i))) := by
  induction l with
  | nil => intro cm; simp [newKeys]
  | cons k l ih =>
      intro cm
      rw [List.foldl_cons]
      by_cases hk : k ∈ cm.map Prod.fst
      · rw [show colorStep cm k = cm from by simp [colorStep, hk]]
        rw [ih cm, newKeys, if_pos hk]
      · rw [show colorStep cm k = cm ++ [(k, paletteAt cm.length)] from by
          simp [colorStep, hk]]
        rw [ih (cm ++ [(k, paletteAt cm.length)]), newKeys, if_neg hk, List.mapIdx_cons]
        simp only [List.map_append, List.map_cons, List.map_nil, List.length_append,
          List.length_cons, List.length_nil, List.append_assoc, List.cons_append,
          List.nil_append]
        refine congrArg (fun t => cm ++ (k, paletteAt (cm.length + 0)) :: t) ?_
        refine congrArg
          (fun g => List.mapIdx g (newKeys (List.map Prod.fst cm ++ [k]) l)) ?_
        funext i k2
        have harith : cm.length + (0 + 1) + i = cm.length + (i + 1) := by omega
        rw [harith]

theorem color_map_eq (ks : List RKey) :
    color_map ks = (newKeys [] ks).mapIdx (fun i k => (k, paletteAt i)) := by
  have h := foldl_colorStep ks []
  simpa using h

theorem map_fst_color_map (ks : List RKey) :
    (color_map ks).map Prod.fst = newKeys [] ks := by
  rw [color_map_eq]
  have h := map_fst_mapIdx_pair paletteAt (newKeys [] ks) 0
  simpa using h

theorem mapIdx_get_mem :
    ∀ (nk : List RKey) (f : ℕ → RKey → RKey × String) (i : ℕ) (h : i < nk.length),
      f i (nk.get ⟨i, h⟩) ∈ nk.mapIdx f := by
  intro nk
  induction nk with
  | nil => intro f i h; simp at h
  | cons a nk ih =>
      intro f i h
      rw [List.mapIdx_cons]
      cases i with
      | zero => exact List.mem_cons_self _ _
      | succ j =>
          exact List.mem_cons_of_mem _
            (ih (fun i k => f (i + 1) k) j (Nat.lt_of_succ_lt_succ h))

/-- C7: the `color_map` cache at lines 142-145: (1) it assigns, in
first-encounter order, the palette entry whose index is the number of
previously assigned keys, taken mod the palette length; (2) that index wraps
modulo the palette length; (3) a key's cached color never changes as further
rows are processed, so every later geometry with the same key gets the same
color; (4) once more distinct keys than palette entries have been seen, two
distinct keys share a color. -/
theorem C7_color_assignment :
    (∀ ks : List RKey, color_map ks = (newKeys [] ks).mapIdx (fun i k => (k, paletteAt i)))
    ∧ (∀ n : ℕ, paletteAt n = paletteAt (n % palette.length))
    ∧ (∀ pre post : List RKey, ∀ k ∈ pre,
        (color_map (pre ++ post)).lookup k = (color_map pre).lookup k)
    ∧ ∀ ks : List RKey, palette.length < (newKeys [] ks).length →
        ∃ k1 k2 c, k1 ≠ k2 ∧ (k1, c) ∈ color_map ks ∧ (k2, c) ∈ color_map ks := by
  refine ⟨color_map_eq, ?_, ?_, ?_⟩
  · intro n
    unfold paletteAt
    rw [Nat.mod_mod_of_dvd n (dvd_refl palette.length)]
  · intro pre post k hk
    have hsplit : color_map (pre ++ post)
        = color_map pre ++ (newKeys ((color_map pre).map Prod.fst) post).mapIdx
            (fun i k2 => (k2, paletteAt ((color_map pre).length + i))) := by
      rw [color_map, List.foldl_append]
      exact foldl_colorStep post (color_map pre)
    rw [hsplit]
    apply lookup_append_left
    rw [map_fst_color_map]
    exact mem_newKeys.mpr ⟨hk, List.not_mem_nil k⟩
  · intro ks hlen
    have hnodup : (newKeys [] ks).Nodup := newKeys_nodup ks []
    have h0 : 0 < (newKeys [] ks).length := lt_trans (by decide) hlen
    refine ⟨(newKeys [] ks).get ⟨0, h0⟩, (newKeys [] ks).get ⟨palette.length, hlen⟩,
      paletteAt 0, ?_, ?_, ?_⟩
    · intro hcontra
      have hfin := (hnodup.get_inj_iff).mp hcontra
      have h21 : (0 : ℕ) = palette.length := congrArg Fin.val hfin
      exact absurd h21 (by decide)
    · rw [color_map_eq]
      exact mapIdx_get_mem (newKeys [] ks) (fun i k => (k, paletteAt i)) 0 h0
    · rw [color_map_eq]
      have hm := mapIdx_get_mem (newKeys [] ks) (fun i k => (k, paletteAt i))
        palette.length hlen
      have hpa : paletteAt palette.length = paletteAt 0 := by decide
      rw [hpa] at hm
      exact hm

end BusStopMapping
